import Mathlib

/-!
Shallow embedding of the VogueCurate client-side engine
(`src/unnamed/part_000` App component, `src/unnamed/part_001` gemini service,
with the `src/App.tsx` sibling variant embedded where a claim cites it).

Pure functions of the source become Lean functions; the React component
state becomes an explicit `AppState` record, each event handler a state
transformer.  The browser/image/network collaborators are parameters
(decode oracles, call results, response values).
-/

namespace VogueCurate

/-- `types.ts`: `CollectionImage`. -/
structure CollectionImage where
  id : String
  url : String
  base64 : Option String
deriving Repr, DecidableEq

/-- `types.ts`: `ExhibitionStrategy` (the part_001 variant, with `tagline`). -/
structure ExhibitionStrategy where
  themeName : String
  tagline : String
  conceptDescription : String
  lightingStrategy : String
  musicAtmosphere : String
  spatialArrangement : String
  materialsUsed : List String
deriving Repr, DecidableEq

/-- `types.ts`: `PromotionalAssets`.  `posterUrl` is optional in the interface
but `generatePromotionalSuite` always supplies a string (possibly empty). -/
structure PromotionalAssets where
  tagline : String
  instagramCaption : String
  pressSnippet : String
  posterUrl : String
deriving Repr, DecidableEq

/-- `types.ts`: `Collection`. -/
structure Collection where
  id : String
  name : String
  season : String
  description : String
  images : List CollectionImage
  strategy : Option ExhibitionStrategy
  promoAssets : Option PromotionalAssets
  visualConceptUrl : Option String
  createdAt : Nat
deriving Repr, DecidableEq

/-- `types.ts`: `AppView`. -/
inductive AppView where
  | dashboard
  | editor
  | viewer
deriving Repr, DecidableEq

/-- The new-collection form state (`formData`). -/
structure FormData where
  name : String
  season : String
  description : String
deriving Repr, DecidableEq

/-- The React component state of `src/unnamed/part_000`, plus a `stored`
field mirroring the durable-storage slot written by the save effect. -/
structure AppState where
  view : AppView
  collections : List Collection
  activeCollection : Option Collection
  isGenerating : Bool
  isImgGenerating : Bool
  isPromoGenerating : Bool
  error : Option String
  formData : FormData
  pendingImages : List CollectionImage
  stored : Option (List Collection)
deriving Repr, DecidableEq

/-- `prev.map(c => c.id === updated.id ? updated : c)` — the mirroring step
of every mutation of the active Collection. -/
def mirrorIntoList (updated : Collection) (l : List Collection) : List Collection :=
  l.map fun c => if c.id = updated.id then updated else c

/-- The collection object literal `createCollection` builds
(part_000 lines 88-92). -/
def newCollOf (freshId : String) (now : Nat) (s : AppState) : Collection :=
  { id := freshId, name := s.formData.name, season := s.formData.season,
    description := s.formData.description, images := s.pendingImages,
    strategy := none, promoAssets := none, visualConceptUrl := none,
    createdAt := now }

/-- `createCollection` of part_000 (and App.tsx, identically): guarded by
`if (!formData.name) return;` — JS falsiness, i.e. only the empty string.
The fresh random id and `Date.now()` are inputs of the embedding; `newCollOf`
is the object literal built at lines 88-92 of part_000. -/
def createCollection (freshId : String) (now : Nat) (s : AppState) : AppState :=
  if s.formData.name = "" then s
  else
    { s with collections := newCollOf freshId now s :: s.collections,
             activeCollection := some (newCollOf freshId now s),
             view := AppView.editor,
             formData := { name := "", season := "", description := "" },
             pendingImages := [],
             error := none }

/-- `deleteCollection` of part_000: the list is always filtered; the active
pointer is cleared (and the view reset) iff `activeCollection?.id === id`. -/
def deleteCollection (cid : String) (s : AppState) : AppState :=
  if s.activeCollection.map Collection.id = some cid then
    { s with collections := s.collections.filter fun c => c.id ≠ cid,
             activeCollection := none, view := AppView.dashboard }
  else
    { s with collections := s.collections.filter fun c => c.id ≠ cid }

/-- The tail of `handleImageUpload` (part_000) once the batch has been
decoded into `processed`: `if (isForActiveCollection && activeCollection)`
appends to the active Collection and mirrors, else appends to the
pending-image buffer. -/
def uploadImages (processed : List CollectionImage) (isForActiveCollection : Bool)
    (s : AppState) : AppState :=
  if isForActiveCollection then
    match s.activeCollection with
    | some a =>
        let updated := { a with images := a.images ++ processed }
        { s with activeCollection := some updated,
                 collections := mirrorIntoList updated s.collections }
    | none => { s with pendingImages := s.pendingImages ++ processed }
  else { s with pendingImages := s.pendingImages ++ processed }

/-- The per-file loop of `handleImageUpload` in `src/App.tsx` (lines
90-110), whose `processImage` wires both `reader.onerror` and `img.onerror`
to `reject`: a file that fails to decode settles as a rejection, which the
`try ... catch` logs and skips.  `decode` is the settled outcome per file. -/
def processBatch {F : Type} (decode : F → Option CollectionImage) :
    List F → List CollectionImage
  | [] => []
  | f :: rest =>
      match decode f with
      | some img => img :: processBatch decode rest
      | none => processBatch decode rest

/-- `handleImageUpload` of `src/App.tsx` (lines 90-110): decode the batch
with the error-handling `processImage` of App.tsx, then append the processed
images to the pending buffer. -/
def appTsxHandleImageUpload {F : Type} (decode : F → Option CollectionImage)
    (files : List F) (s : AppState) : AppState :=
  { s with pendingImages := s.pendingImages ++ processBatch decode files }

/-- Outcome of one `processImage` call in part_000 (lines 38-61):
`resolved` when `reader.onload` and `img.onload` fire and a canvas context
exists; `rejected` when the context is null — the only `reject` that is
wired; `neverSettles` when the blob fails to decode, because part_000 sets
neither `reader.onerror` nor `img.onerror`, so no handler ever settles the
promise. -/
inductive DecodeOutcome where
  | resolved (img : CollectionImage)
  | rejected
  | neverSettles

/-- The per-file loop of part_000's `handleImageUpload` (lines 69-74) over
`processImage` outcomes: a resolved file is accumulated, a rejected one is
caught and skipped, and a never-settling one suspends the `await` forever —
`none` means the loop, and everything after it, never completes. -/
def part000ProcessBatch {F : Type} (decode : F → DecodeOutcome) :
    List F → Option (List CollectionImage)
  | [] => some []
  | f :: rest =>
      match decode f with
      | .resolved img => (part000ProcessBatch decode rest).map fun l => img :: l
      | .rejected => part000ProcessBatch decode rest
      | .neverSettles => none

/-- `handleImageUpload` of part_000 (lines 63-84): when the loop completes,
the processed images are merged by `uploadImages`; `none` means the handler
is suspended forever and no state update ever runs. -/
def part000HandleImageUpload {F : Type} (decode : F → DecodeOutcome)
    (files : List F) (isForActiveCollection : Bool) (s : AppState) :
    Option AppState :=
  (part000ProcessBatch decode files).map fun processed =>
    uploadImages processed isForActiveCollection s

/-- `removeImageFromCollection` of part_000. -/
def removeImageFromCollection (imageId : String) (s : AppState) : AppState :=
  match s.activeCollection with
  | none => s
  | some a =>
      let updated := { a with images := a.images.filter fun img => img.id ≠ imageId }
      { s with activeCollection := some updated,
               collections := mirrorIntoList updated s.collections }

/-- The resolution step of `handleCuration` (part_000 lines 135-137) for the
Collection `started` captured by the closure when the call began:
`setActiveCollection(updated); setCollections(prev => prev.map(...))`. -/
def applyStrategyResult (started : Collection) (res : ExhibitionStrategy)
    (s : AppState) : AppState :=
  let updated := { started with strategy := some res }
  { s with activeCollection := some updated,
           collections := mirrorIntoList updated s.collections }

/-- The resolution step of `handleVisualConcept` (part_000 lines 145-147). -/
def applyVisualConceptResult (started : Collection) (url : String)
    (s : AppState) : AppState :=
  let updated := { started with visualConceptUrl := some url }
  { s with activeCollection := some updated,
           collections := mirrorIntoList updated s.collections }

/-- The resolution step of `handlePromotionalSuite` (part_000 lines 155-157). -/
def applyPromoResult (started : Collection) (promo : PromotionalAssets)
    (s : AppState) : AppState :=
  let updated := { started with promoAssets := some promo }
  { s with activeCollection := some updated,
           collections := mirrorIntoList updated s.collections }

/-- The mutating Collection Store operations of part_000.  The stage
operations carry the Collection the in-flight call was started for. -/
inductive StoreOp where
  | create (freshId : String) (now : Nat)
  | delete (cid : String)
  | upload (processed : List CollectionImage) (isForActiveCollection : Bool)
  | removeImage (imageId : String)
  | stageStrategy (started : Collection) (res : ExhibitionStrategy)
  | stageVisual (started : Collection) (url : String)
  | stagePromo (started : Collection) (promo : PromotionalAssets)

/-- One mutating Collection Store operation. -/
def stepOp (op : StoreOp) (s : AppState) : AppState :=
  match op with
  | .create freshId now => createCollection freshId now s
  | .delete cid => deleteCollection cid s
  | .upload processed isForActive => uploadImages processed isForActive s
  | .removeImage imageId => removeImageFromCollection imageId s
  | .stageStrategy started res => applyStrategyResult started res s
  | .stageVisual started url => applyVisualConceptResult started url s
  | .stagePromo started promo => applyPromoResult started promo s

/-- Store-level invariant of the spec: the active Collection (if any) and
every list entry carrying its id are structurally equal. -/
def mirrorInv (s : AppState) : Prop :=
  ∀ a, s.activeCollection = some a → ∀ c ∈ s.collections, c.id = a.id → c = a

/-- Side condition: `createCollection` draws a fresh id (`Math.random`
suffix); the other operations need nothing. -/
def opOk (op : StoreOp) (s : AppState) : Prop :=
  match op with
  | .create freshId _ => ∀ c ∈ s.collections, c.id ≠ freshId
  | _ => True

/-- Mirroring by id makes the invariant hold unconditionally for any state
whose active pointer and list were updated together. -/
lemma mirrorInv_of_mirrored (u : Collection) (l : List Collection) (s' : AppState)
    (hact : s'.activeCollection = some u)
    (hcoll : s'.collections = mirrorIntoList u l) : mirrorInv s' := by
  intro a ha c hc hid
  rw [hact] at ha
  injection ha with ha
  subst ha
  rw [hcoll] at hc
  simp only [mirrorIntoList, List.mem_map] at hc
  obtain ⟨x, _, hx⟩ := hc
  by_cases hxid : x.id = u.id
  · simp [hxid] at hx
    exact hx.symm
  · simp [hxid] at hx
    subst hx
    exact absurd hid hxid

/-- An empty-ish initial state (what `useState` initializes, before load). -/
def initState : AppState :=
  { view := AppView.dashboard, collections := [], activeCollection := none,
    isGenerating := false, isImgGenerating := false, isPromoGenerating := false,
    error := none, formData := { name := "", season := "", description := "" },
    pendingImages := [], stored := none }

/-- C1: after any mutating Collection Store operation (create, delete, add
images, remove image, apply a stage result), if an active Collection exists
it is structurally equal to every list entry with the same id: the active
copy and its mirror in the persisted list never diverge. -/
theorem mirror_invariant_preserved (op : StoreOp) (s : AppState)
    (hinv : mirrorInv s) (hok : opOk op s) : mirrorInv (stepOp op s) := by
  cases op with
  | create freshId now =>
      show mirrorInv (createCollection freshId now s)
      rw [createCollection]
      by_cases hname : s.formData.name = ""
      · rw [if_pos hname]
        exact hinv
      · rw [if_neg hname]
        intro a ha c hc hid
        have ha' : some (newCollOf freshId now s) = some a := ha
        injection ha' with ha'
        subst ha'
        have hc' : c ∈ newCollOf freshId now s :: s.collections := hc
        rcases List.mem_cons.mp hc' with rfl | hmem
        · rfl
        · exact absurd hid (hok c hmem)
  | delete cid =>
      show mirrorInv (deleteCollection cid s)
      rw [deleteCollection]
      by_cases hact : s.activeCollection.map Collection.id = some cid
      · rw [if_pos hact]
        intro a ha
        exact Option.noConfusion ha
      · rw [if_neg hact]
        intro a ha c hc hcid
        exact hinv a ha c (List.mem_of_mem_filter hc) hcid
  | upload processed isForActive =>
      show mirrorInv (uploadImages processed isForActive s)
      cases isForActive with
      | false =>
          have he : uploadImages processed false s =
              { s with pendingImages := s.pendingImages ++ processed } := by
            unfold uploadImages
            simp
          rw [he]
          intro a ha c hc hcid
          exact hinv a ha c hc hcid
      | true =>
          rcases hact : s.activeCollection with _ | a0
          · have he : uploadImages processed true s =
                { s with pendingImages := s.pendingImages ++ processed } := by
              unfold uploadImages
              rw [hact]
              simp
            rw [he]
            intro a ha c hc hcid
            exact hinv a ha c hc hcid
          · have he : uploadImages processed true s =
                { s with activeCollection := some { a0 with images := a0.images ++ processed },
                         collections :=
                           mirrorIntoList { a0 with images := a0.images ++ processed }
                             s.collections } := by
              unfold uploadImages
              rw [hact]
              simp
            rw [he]
            exact mirrorInv_of_mirrored _ s.collections _ rfl rfl
  | removeImage imageId =>
      show mirrorInv (removeImageFromCollection imageId s)
      rcases hact : s.activeCollection with _ | a0
      · have he : removeImageFromCollection imageId s = s := by
          unfold removeImageFromCollection
          rw [hact]
        rw [he]
        exact hinv
      · have he : removeImageFromCollection imageId s =
            { s with
                activeCollection :=
                  some { a0 with images := a0.images.filter fun img => img.id ≠ imageId },
                collections :=
                  mirrorIntoList { a0 with images := a0.images.filter fun img => img.id ≠ imageId }
                    s.collections } := by
          unfold removeImageFromCollection
          rw [hact]
        rw [he]
        exact mirrorInv_of_mirrored _ s.collections _ rfl rfl
  | stageStrategy started res =>
      exact mirrorInv_of_mirrored _ s.collections _ rfl rfl
  | stageVisual started url =>
      exact mirrorInv_of_mirrored _ s.collections _ rfl rfl
  | stagePromo started promo =>
      exact mirrorInv_of_mirrored _ s.collections _ rfl rfl

/-- Witness for C1: the invariant holds concretely after creating a
collection named "Satori" in a fresh session. -/
theorem mirror_invariant_preserved_witness :
    mirrorInv (stepOp (StoreOp.create "id1" 42)
      { initState with formData := { name := "Satori", season := "FW25", description := "" } }) :=
  mirror_invariant_preserved _ _
    (by intro a ha; simp [initState] at ha)
    (by intro c hc; simp [initState] at hc)

/-- C2: a generation-stage call that resolves after the user changed or
cleared the active Collection applies its result to the list entry matched
by the started-for Collection's id: every entry carrying that id receives
exactly the started-for Collection plus the result, every entry with a
different id (in particular the mirror of whatever Collection is active at
resolution time) is untouched, and the list outcome does not depend on the
resolution-time active pointer at all. -/
theorem stale_result_applied_by_started_id
    (started : Collection) (res : ExhibitionStrategy) (url : String)
    (promo : PromotionalAssets) (s : AppState) :
    ((applyStrategyResult started res s).collections =
        s.collections.map fun c =>
          if c.id = started.id then { started with strategy := some res } else c) ∧
    (∀ c ∈ s.collections, c.id ≠ started.id →
        c ∈ (applyStrategyResult started res s).collections) ∧
    (∀ act : Option Collection,
        (applyStrategyResult started res { s with activeCollection := act }).collections =
          (applyStrategyResult started res s).collections) ∧
    ((applyVisualConceptResult started url s).collections =
        s.collections.map fun c =>
          if c.id = started.id then { started with visualConceptUrl := some url } else c) ∧
    ((applyPromoResult started promo s).collections =
        s.collections.map fun c =>
          if c.id = started.id then { started with promoAssets := some promo } else c) := by
  refine ⟨rfl, ?_, fun act => rfl, rfl, rfl⟩
  intro c hc hne
  show c ∈ mirrorIntoList { started with strategy := some res } s.collections
  simp only [mirrorIntoList, List.mem_map]
  exact ⟨c, hc, by rw [if_neg hne]⟩

/-- A second persisted collection, used by concrete witnesses. -/
def collB : Collection :=
  { id := "b", name := "B", season := "", description := "", images := [],
    strategy := none, promoAssets := none, visualConceptUrl := none, createdAt := 1 }

/-- A persisted collection with no strategy, used by concrete witnesses. -/
def collA : Collection :=
  { id := "a", name := "A", season := "", description := "", images := [],
    strategy := none, promoAssets := none, visualConceptUrl := none, createdAt := 0 }

/-- A sample strategy payload for concrete scenarios. -/
def sampleStrategy : ExhibitionStrategy :=
  { themeName := "X", tagline := "t", conceptDescription := "c",
    lightingStrategy := "l", musicAtmosphere := "m", spatialArrangement := "sp",
    materialsUsed := ["steel"] }

/-- Witness for C2: with collections `[collA, collB]` and `collB` active at
resolution time, a stale strategy result started for `collA` leaves `collB`'s
list entry untouched. -/
theorem stale_result_applied_by_started_id_witness :
    collB ∈ (applyStrategyResult collA sampleStrategy
      { initState with collections := [collA, collB],
                       activeCollection := some collB }).collections :=
  (stale_result_applied_by_started_id collA sampleStrategy "u"
      { tagline := "t", instagramCaption := "i", pressSnippet := "p", posterUrl := "" }
      { initState with collections := [collA, collB],
                       activeCollection := some collB }).2.1
    collB (by simp) (by decide)

/-- A dashboard state whose new-collection form holds the whitespace-only
name `" "`. -/
def wsFormState : AppState :=
  { initState with formData := { name := " ", season := "FW25", description := "" } }

/-- C3 counterexample: `" "` consists only of whitespace characters, yet
`createCollection` is not a no-op on it — the store grows, because the JS
guard `if (!formData.name) return;` only rejects the empty string. -/
theorem createCollection_whitespace_name_creates :
    (∀ c ∈ (" " : String).data, c.isWhitespace = true) ∧
    ¬ ((createCollection "fresh1" 5 wsFormState).collections.length =
        wsFormState.collections.length) := by
  constructor
  · decide
  · decide

/-- C3 (amended): `createCollection` is a no-op exactly for the empty name —
a whitespace-only name is treated like any non-empty name — and for every
non-empty name it allocates a Collection with the supplied fresh id,
prepends it to the list, sets it active, and clears the pending buffer. -/
theorem createCollection_empty_name_noop_else_creates
    (freshId : String) (now : Nat) (s : AppState) :
    (s.formData.name = "" → createCollection freshId now s = s) ∧
    (s.formData.name ≠ "" →
      (createCollection freshId now s).collections =
          newCollOf freshId now s :: s.collections ∧
      (createCollection freshId now s).activeCollection =
          some (newCollOf freshId now s) ∧
      (createCollection freshId now s).pendingImages = [] ∧
      (newCollOf freshId now s).id = freshId ∧
      (newCollOf freshId now s).name = s.formData.name ∧
      (newCollOf freshId now s).images = s.pendingImages ∧
      (newCollOf freshId now s).strategy = none) := by
  constructor
  · intro h
    rw [createCollection, if_pos h]
  · intro h
    unfold createCollection
    rw [if_neg h]
    exact ⟨rfl, rfl, rfl, rfl, rfl, rfl, rfl⟩

/-- A dashboard state with the name "Satori" in the form. -/
def satoriFormState : AppState :=
  { initState with formData := { name := "Satori", season := "FW25", description := "" } }

/-- Witness for C3 (amended): creating "Satori" prepends and activates the
new Collection. -/
theorem createCollection_empty_name_noop_else_creates_witness :
    (createCollection "i1" 3 satoriFormState).activeCollection =
      some (newCollOf "i1" 3 satoriFormState) :=
  ((createCollection_empty_name_noop_else_creates "i1" 3 satoriFormState).2
    (by decide)).2.1

/-- The App.tsx try/catch loop accumulates exactly the successfully decoded
files, in input order. -/
lemma processBatch_eq_filterMap {F : Type} (decode : F → Option CollectionImage) :
    ∀ files : List F, processBatch decode files = files.filterMap decode := by
  intro files
  induction files with
  | nil => rfl
  | cons f rest ih =>
      rw [processBatch, List.filterMap_cons]
      cases decode f <;> simp [ih]

/-- Decode outcomes of the failing scenario under part_000: file 2's blob
fails to decode, so its `processImage` promise never settles. -/
def part000WitnessDecode : Nat → DecodeOutcome := fun n =>
  if n = 1 then DecodeOutcome.resolved { id := "one", url := "u1", base64 := none }
  else if n = 3 then DecodeOutcome.resolved { id := "three", url := "u3", base64 := none }
  else DecodeOutcome.neverSettles

/-- Decode outcomes of the same scenario under App.tsx: file 2 rejects. -/
def appTsxWitnessDecode : Nat → Option CollectionImage := fun n =>
  if n = 1 then some { id := "one", url := "u1", base64 := none }
  else if n = 3 then some { id := "three", url := "u3", base64 := none }
  else none

/-- C4 (code bug): in part_000 a 3-file batch whose second file fails to
decode never completes — `processImage` wires no error handler, so the
`await` on file #2 suspends forever and the pending buffer gains nothing
(the handler yields no state) — whereas the claimed skip-and-continue
behaviour holds of the `src/App.tsx` variant, whose `processImage` rejects
on decode failure: there the buffer ends with exactly the images of files
#1 and #3, in that order. -/
theorem batch_upload_stalls_on_decode_failure :
    (part000HandleImageUpload part000WitnessDecode [1, 2, 3] false initState =
        none) ∧
    ((appTsxHandleImageUpload appTsxWitnessDecode [1, 2, 3] initState).pendingImages =
        [{ id := "one", url := "u1", base64 := none },
         { id := "three", url := "u3", base64 := none }]) :=
  ⟨rfl, rfl⟩

/-- Outcome of one `localStorage.setItem` attempt (the durable-storage
collaborator). -/
inductive WriteResult where
  | ok
  | quotaExceeded
  | otherFailure
deriving Repr, DecidableEq

/-- User-surfaced conditions of the save effect. -/
inductive ReportedCondition where
  | storageFull
deriving Repr, DecidableEq, BEq

/-- The message set by the quota branch of the save effect (part_000). -/
def archiveFullMsg : String :=
  "Your fashion archive is full. Please delete an older collection."

/-- The save `useEffect` of part_000 (lines 28-36): try the write; on a
`QuotaExceededError` report the archive-full condition; any other failure is
swallowed.  Alongside the state it returns the list of reported conditions
of this one run. -/
def persistCollections (s : AppState) (res : WriteResult) :
    AppState × List ReportedCondition :=
  match res with
  | .ok => ({ s with stored := some s.collections }, [])
  | .quotaExceeded => ({ s with error := some archiveFullMsg }, [.storageFull])
  | .otherFailure => (s, [])

/-- C5: a capacity-exceeded durable-storage write leaves the in-memory store
(collections, active pointer, pending buffer, even the stored slot) exactly
as before the attempt, and reports the StorageFull condition exactly once
instead of propagating a raw fault. -/
theorem quota_fault_keeps_memory_reports_once (s : AppState) :
    ((persistCollections s WriteResult.quotaExceeded).1.collections = s.collections) ∧
    ((persistCollections s WriteResult.quotaExceeded).1.activeCollection =
        s.activeCollection) ∧
    ((persistCollections s WriteResult.quotaExceeded).1.pendingImages =
        s.pendingImages) ∧
    ((persistCollections s WriteResult.quotaExceeded).1.stored = s.stored) ∧
    ((persistCollections s WriteResult.quotaExceeded).2 =
        [ReportedCondition.storageFull]) ∧
    ((persistCollections s WriteResult.quotaExceeded).2.count
        ReportedCondition.storageFull = 1) :=
  ⟨rfl, rfl, rfl, rfl, rfl, rfl⟩

/-- The message `wrapApiCall`'s catch branch sets (part_000 line 123). -/
def curatorBusyMsg : String :=
  "The digital curator is currently busy. Please try again in a moment."

/-- One complete run of `handleCuration` in part_000, through `wrapApiCall`:
clear the error, guard on an active Collection, raise the busy flag, await
the strategy call (its outcome is the `call` parameter), then either apply
the result and lower the flag, or get caught by `wrapApiCall` — which only
sets the error message; the `setIsGenerating(false)` after the `await` is
skipped, so on failure the flag stays up.  The Bool records whether the
external call was made. -/
def handleCurationRun (call : Except Unit ExhibitionStrategy) (s : AppState) :
    AppState × Bool :=
  match s.activeCollection with
  | none => ({ s with error := none }, false)
  | some started =>
      match call with
      | .error _ =>
          ({ s with error := some curatorBusyMsg, isGenerating := true }, true)
      | .ok res =>
          ({ applyStrategyResult started res { s with error := none }
              with isGenerating := false }, true)

/-- One complete run of `handleVisualConcept` in part_000: additionally
guarded on `activeCollection?.strategy`. -/
def handleVisualConceptRun (call : Except Unit String) (s : AppState) :
    AppState × Bool :=
  match s.activeCollection with
  | none => ({ s with error := none }, false)
  | some started =>
      match started.strategy with
      | none => ({ s with error := none }, false)
      | some _ =>
          match call with
          | .error _ =>
              ({ s with error := some curatorBusyMsg, isImgGenerating := true }, true)
          | .ok url =>
              ({ applyVisualConceptResult started url { s with error := none }
                  with isImgGenerating := false }, true)

/-- One complete run of `handlePromotionalSuite` in part_000. -/
def handlePromotionalSuiteRun (call : Except Unit PromotionalAssets)
    (s : AppState) : AppState × Bool :=
  match s.activeCollection with
  | none => ({ s with error := none }, false)
  | some started =>
      match started.strategy with
      | none => ({ s with error := none }, false)
      | some _ =>
          match call with
          | .error _ =>
              ({ s with error := some curatorBusyMsg, isPromoGenerating := true }, true)
          | .ok promo =>
              ({ applyPromoResult started promo { s with error := none }
                  with isPromoGenerating := false }, true)

/-- One complete run of `handleCuration` in the `src/App.tsx` variant
(lines 137-156): try/catch/alert with a `finally` that always lowers the
busy flag. -/
def appTsxHandleCurationRun (call : Except Unit ExhibitionStrategy)
    (s : AppState) : AppState :=
  match s.activeCollection with
  | none => s
  | some started =>
      match call with
      | .error _ => { s with isGenerating := false }
      | .ok res =>
          { applyStrategyResult started res s with isGenerating := false }

/-- A session whose active Collection `collA` has no strategy yet. -/
def runState : AppState :=
  { initState with collections := [collA], activeCollection := some collA }

/-- `collA` after stage 1 has completed. -/
def collAStrategized : Collection := { collA with strategy := some sampleStrategy }

/-- A session whose active Collection already carries a strategy. -/
def strategizedState : AppState :=
  { initState with collections := [collAStrategized],
                   activeCollection := some collAStrategized }

/-- C8 (code bug): in part_000 a failed stage call leaves the per-stage busy
flag raised — `wrapApiCall` has no `finally`, and `setIsGenerating(false)`
sits after the `await`, so the catch path never lowers it (first and third
conjuncts); the flag is lowered on success (second), and the sibling
`src/App.tsx` variant lowers it on failure through its `finally` block
(fourth), matching the documented intent. -/
theorem busy_flag_stuck_on_failure :
    ((handleCurationRun (Except.error ()) runState).1.isGenerating = true) ∧
    ((handleCurationRun (Except.ok sampleStrategy) runState).1.isGenerating = false) ∧
    ((handleVisualConceptRun (Except.error ()) strategizedState).1.isImgGenerating
        = true) ∧
    ((appTsxHandleCurationRun (Except.error ()) runState).isGenerating = false) :=
  ⟨rfl, rfl, rfl, rfl⟩

/-- C10: while the active Collection's Strategy is absent, triggering stage 2
(visual concept) or stage 3 (promotional assets) makes no external call,
raises no busy flag, and leaves the Collection list, the active pointer and
the pending buffer unchanged. -/
theorem absent_strategy_stages_no_effect (s : AppState) (a : Collection)
    (imgCall : Except Unit String) (promoCall : Except Unit PromotionalAssets)
    (hact : s.activeCollection = some a) (hstr : a.strategy = none) :
    ((handleVisualConceptRun imgCall s).2 = false ∧
     (handleVisualConceptRun imgCall s).1.collections = s.collections ∧
     (handleVisualConceptRun imgCall s).1.activeCollection = s.activeCollection ∧
     (handleVisualConceptRun imgCall s).1.isGenerating = s.isGenerating ∧
     (handleVisualConceptRun imgCall s).1.isImgGenerating = s.isImgGenerating ∧
     (handleVisualConceptRun imgCall s).1.isPromoGenerating = s.isPromoGenerating ∧
     (handleVisualConceptRun imgCall s).1.pendingImages = s.pendingImages) ∧
    ((handlePromotionalSuiteRun promoCall s).2 = false ∧
     (handlePromotionalSuiteRun promoCall s).1.collections = s.collections ∧
     (handlePromotionalSuiteRun promoCall s).1.activeCollection = s.activeCollection ∧
     (handlePromotionalSuiteRun promoCall s).1.isGenerating = s.isGenerating ∧
     (handlePromotionalSuiteRun promoCall s).1.isImgGenerating = s.isImgGenerating ∧
     (handlePromotionalSuiteRun promoCall s).1.isPromoGenerating =
        s.isPromoGenerating ∧
     (handlePromotionalSuiteRun promoCall s).1.pendingImages = s.pendingImages) := by
  have he1 : handleVisualConceptRun imgCall s = ({ s with error := none }, false) := by
    unfold handleVisualConceptRun
    simp only [hact, hstr]
  have he2 : handlePromotionalSuiteRun promoCall s =
      ({ s with error := none }, false) := by
    unfold handlePromotionalSuiteRun
    simp only [hact, hstr]
  rw [he1, he2]
  exact ⟨⟨rfl, rfl, hact.symm ▸ rfl, rfl, rfl, rfl, rfl⟩,
         ⟨rfl, rfl, hact.symm ▸ rfl, rfl, rfl, rfl, rfl⟩⟩

/-- Witness for C10: in a session whose active Collection has no strategy,
triggering stage 2 makes no external call. -/
theorem absent_strategy_stages_no_effect_witness :
    (handleVisualConceptRun (Except.error ()) runState).2 = false :=
  (absent_strategy_stages_no_effect runState collA (Except.error ())
    (Except.error ()) rfl rfl).1.1

/-- The dimension computation of `processImage` (part_000 lines 45-50,
identical in App.tsx): `if (width > height) { if (width > 1024) { height *=
1024/width; width = 1024 } } else { if (height > 1024) { width *=
1024/height; height = 1024 } }`, with JS numbers modelled as rationals. -/
def processImageDims (w h : ℚ) : ℚ × ℚ :=
  if h < w then
    if 1024 < w then (1024, h * (1024 / w)) else (w, h)
  else
    if 1024 < h then (w * (1024 / h), 1024) else (w, h)

/-- C9: for every input (W,H) with positive dimensions, the normalized
output has its longer edge ≤ 1024, neither output dimension exceeds its
source dimension, when max(W,H) > 1024 both axes are scaled by the single
factor 1024 / max(W,H), and when both dimensions are already ≤ 1024 the
image is not rescaled at all. -/
theorem normalize_dims_bounded (w h : ℚ) (hw : 0 < w) (hh : 0 < h) :
    (max (processImageDims w h).1 (processImageDims w h).2 ≤ 1024) ∧
    ((processImageDims w h).1 ≤ w) ∧
    ((processImageDims w h).2 ≤ h) ∧
    (1024 < max w h →
      processImageDims w h = (w * (1024 / max w h), h * (1024 / max w h))) ∧
    (w ≤ 1024 → h ≤ 1024 → processImageDims w h = (w, h)) := by
  unfold processImageDims
  by_cases h1 : h < w
  · rw [if_pos h1]
    by_cases h2 : (1024 : ℚ) < w
    · rw [if_pos h2]
      have hwpos : (0 : ℚ) < w := hw
      have hfact : w * (1024 / w) = 1024 := by field_simp
      have hle1 : (1024 : ℚ) / w ≤ 1 := by
        rw [div_le_one hwpos]
        exact le_of_lt h2
      refine ⟨?_, le_of_lt h2, ?_, ?_, ?_⟩
      · apply max_le (le_refl _)
        calc h * (1024 / w) ≤ w * (1024 / w) := by
              apply mul_le_mul_of_nonneg_right (le_of_lt h1)
              positivity
          _ = 1024 := hfact
      · calc h * (1024 / w) ≤ h * 1 :=
              mul_le_mul_of_nonneg_left hle1 (le_of_lt hh)
          _ = h := mul_one h
      · intro _
        rw [max_eq_left (le_of_lt h1), hfact]
      · intro hwle _
        exact absurd h2 (not_lt.mpr hwle)
    · rw [if_neg h2]
      push_neg at h2
      refine ⟨max_le h2 (le_trans (le_of_lt h1) h2), le_refl _, le_refl _, ?_,
        fun _ _ => rfl⟩
      intro hcontra
      rw [max_eq_left (le_of_lt h1)] at hcontra
      exact absurd hcontra (not_lt.mpr h2)
  · rw [if_neg h1]
    push_neg at h1
    by_cases h2 : (1024 : ℚ) < h
    · rw [if_pos h2]
      have hhpos : (0 : ℚ) < h := hh
      have hfact : h * (1024 / h) = 1024 := by field_simp
      have hle1 : (1024 : ℚ) / h ≤ 1 := by
        rw [div_le_one hhpos]
        exact le_of_lt h2
      refine ⟨?_, ?_, le_of_lt h2, ?_, ?_⟩
      · apply max_le ?_ (le_refl _)
        calc w * (1024 / h) ≤ h * (1024 / h) := by
              apply mul_le_mul_of_nonneg_right h1
              positivity
          _ = 1024 := hfact
      · calc w * (1024 / h) ≤ w * 1 :=
              mul_le_mul_of_nonneg_left hle1 (le_of_lt hw)
          _ = w := mul_one w
      · intro _
        rw [max_eq_right h1, hfact]
      · intro _ hhle
        exact absurd h2 (not_lt.mpr hhle)
    · rw [if_neg h2]
      push_neg at h2
      refine ⟨max_le (le_trans h1 h2) h2, le_refl _, le_refl _, ?_,
        fun _ _ => rfl⟩
      intro hcontra
      rw [max_eq_right h1] at hcontra
      exact absurd hcontra (not_lt.mpr h2)

/-- Witness for C9: a 2048×512 input normalizes within the 1024 bound. -/
theorem normalize_dims_bounded_witness :
    max (processImageDims 2048 512).1 (processImageDims 2048 512).2 ≤ 1024 :=
  (normalize_dims_bounded 2048 512 (by norm_num) (by norm_num)).1

/-- Boolean list-prefix test (our own, fully structural). -/
def startsWithL : List Char → List Char → Bool
  | [], _ => true
  | _ :: _, [] => false
  | p :: ps, c :: cs => p == c && startsWithL ps cs

/-- The longest alternative of the fence regex: "```json" + newline. -/
def fence8 : List Char := "```json\n".data

/-- The fence regex's first alternative without the optional newline. -/
def fence7 : List Char := "```json".data

/-- The fence regex's second alternative: a bare "```". -/
def fence3 : List Char := "```".data

/-- The backtick character (obtained from the fence, so no backtick literal
appears outside a string). -/
def bq : Char := List.headD fence3 'A'

/-- The global replace `text.replace(/```json\n?|```/g, "")` of
`parseGeminiJson` (part_001 line 6), as a left-to-right scan: at each
position try "```json\n", then "```json", then "```", removing the match and
resuming after it; otherwise keep the character.  The second argument counts
characters still to be skipped from a previous match. -/
def stripAux : List Char → Nat → List Char
  | [], _ => []
  | _ :: rest, k + 1 => stripAux rest k
  | c :: rest, 0 =>
      if startsWithL fence8 (c :: rest) then stripAux rest 7
      else if startsWithL fence7 (c :: rest) then stripAux rest 6
      else if startsWithL fence3 (c :: rest) then stripAux rest 2
      else c :: stripAux rest 0

/-- JS `String.prototype.trim`: drop whitespace at both ends. -/
def trimL (l : List Char) : List Char :=
  ((l.dropWhile Char.isWhitespace).reverse.dropWhile Char.isWhitespace).reverse

/-- The cleaned text `parseGeminiJson` feeds to `JSON.parse`:
`text.replace(/```json\n?|```/g, "").trim()`. -/
def cleanedOf (text : String) : String :=
  String.mk (trimL (stripAux text.data 0))

/-- Failure conditions of the generation service boundary. -/
inductive GenError where
  | malformedResponse
  | noImageReturned
deriving Repr, DecidableEq

/-- `parseGeminiJson` of part_001 (lines 4-11): strip code fences, trim,
parse; a parse failure surfaces as the distinguished malformed-response
condition.  `JSON.parse` plus the schema decoding is the oracle `parse`. -/
def parseGeminiJson {α : Type} (parse : String → Option α) (text : String) :
    Except GenError α :=
  match parse (cleanedOf text) with
  | some v => Except.ok v
  | none => Except.error GenError.malformedResponse

/-- `true` iff the list contains "```" as a substring. -/
def hasFence : List Char → Bool
  | [] => false
  | c :: t => startsWithL fence3 (c :: t) || hasFence t

/-- `true` iff the list starts with a backtick. -/
def headIsBq : List Char → Bool
  | [] => false
  | c :: _ => c == bq

lemma fence3_eq : fence3 = [bq, bq, bq] := by decide

lemma startsWithL_trans : ∀ a b c : List Char, startsWithL a b = true →
    startsWithL b c = true → startsWithL a c = true := by
  intro a
  induction a with
  | nil => intro b c _ _; rfl
  | cons x xs ih =>
      intro b c h1 h2
      cases b with
      | nil => simp [startsWithL] at h1
      | cons y ys =>
          cases c with
          | nil => simp [startsWithL] at h2
          | cons z zs =>
              simp only [startsWithL, Bool.and_eq_true, beq_iff_eq] at h1 h2 ⊢
              exact ⟨h1.1.trans h2.1, ih ys zs h1.2 h2.2⟩

lemma not_starts_larger (l : List Char) (h : startsWithL fence3 l = false) :
    startsWithL fence8 l = false ∧ startsWithL fence7 l = false := by
  constructor
  · cases h8 : startsWithL fence8 l
    · rfl
    · have := startsWithL_trans fence3 fence8 l (by decide) h8
      rw [h] at this
      exact absurd this (by simp)
  · cases h7 : startsWithL fence7 l
    · rfl
    · have := startsWithL_trans fence3 fence7 l (by decide) h7
      rw [h] at this
      exact absurd this (by simp)

lemma swl_bq1_append (t s : List Char) (ht : startsWithL [bq] t = false)
    (hs : headIsBq s = false) : startsWithL [bq] (t ++ s) = false := by
  cases t with
  | nil =>
      cases s with
      | nil => rfl
      | cons d s' =>
          simp only [startsWithL, List.nil_append, Bool.and_eq_true, beq_iff_eq,
            Bool.and_true]
          simp only [headIsBq, beq_iff_eq] at hs
          simp only [beq_eq_false_iff_ne, ne_eq]
          intro hEq
          rw [beq_eq_false_iff_ne] at hs
          exact hs hEq.symm
  | cons d t' =>
      simp only [startsWithL, List.cons_append]
      simpa [startsWithL] using ht

lemma swl_bq2_append (t s : List Char) (ht : startsWithL [bq, bq] t = false)
    (hs : headIsBq s = false) : startsWithL [bq, bq] (t ++ s) = false := by
  cases t with
  | nil =>
      cases s with
      | nil => rfl
      | cons d s' =>
          simp only [List.nil_append, startsWithL]
          simp only [headIsBq] at hs
          have hbd : (bq == d) = false := by
            rw [beq_eq_false_iff_ne] at hs ⊢
            exact fun hEq => hs hEq.symm
          simp [hbd]
  | cons d t' =>
      simp only [List.cons_append, startsWithL]
      cases hbd : (bq == d) with
      | false => simp
      | true =>
          have ht' : startsWithL [bq] t' = false := by
            simpa [startsWithL, hbd] using ht
          simp [swl_bq1_append t' s ht' hs]

lemma swl_fence3_append (c : Char) (t s : List Char)
    (hct : startsWithL fence3 (c :: t) = false) (hs : headIsBq s = false) :
    startsWithL fence3 (c :: (t ++ s)) = false := by
  rw [fence3_eq] at hct ⊢
  simp only [startsWithL] at hct ⊢
  cases hbc : (bq == c) with
  | false => simp
  | true =>
      have ht : startsWithL [bq, bq] t = false := by simpa [hbc] using hct
      simp [swl_bq2_append t s ht hs]

/-- Scanning a fence-free block followed by a non-backtick continuation
copies the block verbatim. -/
lemma stripAux_append_of_noFence : ∀ l s : List Char, hasFence l = false →
    headIsBq s = false → stripAux (l ++ s) 0 = l ++ stripAux s 0 := by
  intro l
  induction l with
  | nil => intro s _ _; rfl
  | cons c t ih =>
      intro s hl hs
      have hl' : startsWithL fence3 (c :: t) = false ∧ hasFence t = false := by
        have := hl
        rw [hasFence, Bool.or_eq_false_iff] at this
        exact this
      have h3 : startsWithL fence3 (c :: (t ++ s)) = false :=
        swl_fence3_append c t s hl'.1 hs
      have h78 := not_starts_larger _ h3
      show stripAux (c :: (t ++ s)) 0 = c :: (t ++ stripAux s 0)
      rw [stripAux, if_neg (by simp [h78.1]), if_neg (by simp [h78.2]),
        if_neg (by simp [h3])]
      rw [ih s hl'.2 hs]

/-- The skip counter drops exactly the matched characters. -/
lemma stripAux_skip : ∀ pre rest : List Char,
    stripAux (pre ++ rest) pre.length = stripAux rest 0 := by
  intro pre
  induction pre with
  | nil => intro rest; rfl
  | cons c p ih =>
      intro rest
      show stripAux (c :: (p ++ rest)) (p.length + 1) = stripAux rest 0
      rw [stripAux]
      exact ih rest

lemma startsWithL_append_self : ∀ p r : List Char,
    startsWithL p (p ++ r) = true := by
  intro p r
  induction p with
  | nil => rfl
  | cons c ps ih => simp [startsWithL, ih]

/-- Stripping the canonical fenced wrapping of a fence-free payload leaves
the payload plus the trailing newline. -/
lemma stripAux_fenced (j : List Char) (hj : hasFence j = false) :
    stripAux (fence8 ++ (j ++ ('\n' :: fence3))) 0 = j ++ ['\n'] := by
  have hpref : startsWithL fence8 (fence8 ++ (j ++ ('\n' :: fence3))) = true :=
    startsWithL_append_self _ _
  rcases hF : fence8 with _ | ⟨c0, f8t⟩
  · exact absurd hF (by decide)
  · rw [hF, List.cons_append] at hpref
    rw [← hF] at hpref
    rw [List.cons_append, stripAux, if_pos hpref]
    have hlen : f8t.length = 7 := by
      have h8 : fence8.length = 8 := by decide
      rw [hF] at h8
      simpa using h8
    rw [← hlen, stripAux_skip]
    rw [stripAux_append_of_noFence j ('\n' :: fence3) hj (by decide)]
    congr 1

/-- A fence-free text is untouched by the stripping scan. -/
lemma stripAux_id_of_noFence (j : List Char) (hj : hasFence j = false) :
    stripAux j 0 = j := by
  have h := stripAux_append_of_noFence j [] hj (by decide)
  simpa [show stripAux [] 0 = [] from rfl] using h

lemma dropWhile_ws_append_nl (l : List Char) :
    List.dropWhile Char.isWhitespace (l ++ ['\n']) =
      if (List.dropWhile Char.isWhitespace l).isEmpty then []
      else List.dropWhile Char.isWhitespace l ++ ['\n'] := by
  induction l with
  | nil => decide
  | cons c t ih =>
      by_cases hc : Char.isWhitespace c
      · simpa [List.dropWhile_cons, hc] using ih
      · simp [List.dropWhile_cons, hc]

/-- Trimming absorbs a trailing newline. -/
lemma trimL_append_nl (l : List Char) : trimL (l ++ ['\n']) = trimL l := by
  unfold trimL
  rw [dropWhile_ws_append_nl]
  by_cases he : (List.dropWhile Char.isWhitespace l).isEmpty
  · rw [if_pos he]
    have hnil : List.dropWhile Char.isWhitespace l = [] := by
      simpa [List.isEmpty_iff] using he
    rw [hnil]
  · rw [if_neg he]
    rw [List.reverse_append]
    simp only [List.reverse_cons, List.reverse_nil, List.nil_append,
      List.singleton_append]
    rw [List.dropWhile_cons, if_pos (by decide)]

/-- C6: the strategy stage parses response text after stripping markdown
code-fence wrapping — a fenced response parses identically to its unfenced
equivalent (for any fence-free payload) — and a parse failure surfaces only
as the distinguished malformed-response condition, never anything else. -/
theorem fenced_response_parses_like_unfenced {α : Type}
    (parse : String → Option α) (j : String) (hj : hasFence j.data = false) :
    (parseGeminiJson parse ("```json\n" ++ j ++ "\n```") =
        parseGeminiJson parse j) ∧
    (∀ (t : String) (e : GenError),
        parseGeminiJson parse t = Except.error e →
        e = GenError.malformedResponse) := by
  constructor
  · unfold parseGeminiJson cleanedOf
    have hdata : ("```json\n" ++ j ++ "\n```").data =
        fence8 ++ (j.data ++ ('\n' :: fence3)) := by
      have h1 : ("```json\n" ++ j ++ "\n```").data =
          ("```json\n".data ++ j.data) ++ "\n```".data := rfl
      rw [h1, List.append_assoc]
      congr 1
    rw [hdata, stripAux_fenced j.data hj, trimL_append_nl,
      stripAux_id_of_noFence j.data hj]
  · intro t e h
    unfold parseGeminiJson at h
    cases hp : parse (cleanedOf t) with
    | some v =>
        rw [hp] at h
        exact Except.noConfusion h
    | none =>
        rw [hp] at h
        have h' : (Except.error GenError.malformedResponse : Except GenError α) =
            Except.error e := h
        injection h' with h'
        exact h'.symm

/-- Parse oracle for the C6 witness. -/
def witParse : String → Option Nat := fun t => if t = "payload" then some 7 else none

/-- Witness for C6: the concrete fenced payload parses like the bare one. -/
theorem fenced_response_parses_like_unfenced_witness :
    parseGeminiJson witParse ("```json\n" ++ "payload" ++ "\n```") =
      parseGeminiJson witParse "payload" :=
  (fenced_response_parses_like_unfenced witParse "payload" (by decide)).1

end VogueCurate
